import Mathlib

/-!
Verification development for the reviewflow repository: a shallow embedding
of the admission/deduplication queue, the review lifecycle state machine,
the thread reconciliation engine, the tracking store, the follow-up
evaluator, the CLI use case AddRepositoriesToConfigUseCase, and the runtime
settings module, together with theorems settling the specified properties.

The queue, state machine, reconciliation engine, tracking store and
follow-up evaluator are referenced by the repository routing code
(pQueueAdapter, the tracking use cases) but their implementation files are
not part of the available sources; those components are modelled from the
specification, as marked on each definition. AddRepositoriesToConfigUseCase
and runtimeSettings are embedded from their TypeScript sources.
-/

namespace Reviewflow

/-- Hosting platform of a reviewable entity (GitLab or GitHub). -/
inductive Platform
  | gitlab
  | github
deriving DecidableEq, Repr

/-- ReviewableEntity key: (platform, repositoryId, requestNumber), the unit
of tracking and deduplication. -/
structure EntityKey where
  platform : Platform
  repositoryId : Nat
  requestNumber : Nat
deriving DecidableEq, Repr

/-! ## Admission Queue & Deduplicator -/

/-- Status of an ephemeral queue entry. -/
inductive EntryStatus
  | running
  | waiting
deriving DecidableEq, Repr

/-- Modelled from the spec: QueueEntry, ephemeral, owned by the Admission
Queue: key, submittedAt, status in (running, waiting), jobId. -/
structure QueueEntry where
  key : EntityKey
  jobId : Nat
  submittedAt : Nat
  status : EntryStatus
deriving DecidableEq, Repr

/-- Modelled from the spec: queue configuration, maxConcurrent (integer at
least 1) and deduplicationWindowMs (integer at least 0). -/
structure QueueConfig where
  maxConcurrent : Nat
  deduplicationWindowMs : Nat
deriving DecidableEq, Repr

/-- Modelled from the spec: in-memory state of the Admission Queue: the
active entries (waiting entries in FIFO order of submission), the recorded
completion time per key for the dedup window, and a fresh-jobId counter. -/
structure QueueState where
  entries : List QueueEntry
  completedAt : List (EntityKey × Nat)
  nextJobId : Nat
deriving DecidableEq, Repr

/-- Result of a submit call. -/
inductive AdmissionResult
  | rejectedDuplicateRunning
  | rejectedDebounced
  | admitted (jobId : Nat)
  | queued (jobId : Nat)
deriving DecidableEq, Repr

/-- Completion time recorded for a key, if any. -/
def lookupCompleted (l : List (EntityKey × Nat)) (k : EntityKey) : Option Nat :=
  match l.find? (fun p => p.1 == k) with
  | some p => some p.2
  | none => none

/-- Whether some queue entry for key k has status running. -/
def hasRunningFor (q : QueueState) (k : EntityKey) : Bool :=
  q.entries.any (fun e => e.key == k && e.status == EntryStatus.running)

/-- Number of entries with status running, across all keys. -/
def runningCount (q : QueueState) : Nat :=
  q.entries.countP (fun e => e.status == EntryStatus.running)

/-- Number of entries with status running for the given key. -/
def runningCountFor (q : QueueState) (k : EntityKey) : Nat :=
  q.entries.countP (fun e => e.key == k && e.status == EntryStatus.running)

/-- Whether a submit for key k at time now falls inside the dedup window:
the key's last completed submission finished strictly less than
deduplicationWindowMs ago. -/
def isDebounced (cfg : QueueConfig) (q : QueueState) (k : EntityKey) (now : Nat) : Bool :=
  match lookupCompleted q.completedAt k with
  | some t => now - t < cfg.deduplicationWindowMs
  | none => false

/-- Modelled from the spec: operation submit(key, requestPayload).
If an entry for key is running, return rejected(duplicate-running); else if
the last completed submission for the key finished less than
deduplicationWindowMs ago, return rejected(debounced); else if the global
running count is below maxConcurrent, create a running entry and return
admitted(jobId); else append a waiting entry to the FIFO list and return
queued(jobId). -/
def submit (cfg : QueueConfig) (q : QueueState) (k : EntityKey) (now : Nat) :
    AdmissionResult × QueueState :=
  if hasRunningFor q k then
    (AdmissionResult.rejectedDuplicateRunning, q)
  else if isDebounced cfg q k now then
    (AdmissionResult.rejectedDebounced, q)
  else if runningCount q < cfg.maxConcurrent then
    (AdmissionResult.admitted q.nextJobId,
     { q with
        entries := q.entries ++ [⟨k, q.nextJobId, now, EntryStatus.running⟩],
        nextJobId := q.nextJobId + 1 })
  else
    (AdmissionResult.queued q.nextJobId,
     { q with
        entries := q.entries ++ [⟨k, q.nextJobId, now, EntryStatus.waiting⟩],
        nextJobId := q.nextJobId + 1 })

/-- Outcome reported by the Reviewer Port when a job settles. -/
inductive Outcome
  | success
  | failure
deriving DecidableEq, Repr

/-- Promote the entry with the given jobId to running, in place. -/
def promoteEntry (jobId : Nat) (e : QueueEntry) : QueueEntry :=
  if e.jobId == jobId then { e with status := EntryStatus.running } else e

/-- Modelled from the spec: operation onJobSettled(jobId, outcome), called
by the Reviewer Port on completion, success or failure: mark the entry
terminal (it leaves the active set), record completion time for the dedup
window, then pop the oldest waiting entry (if any) and promote it to
running, invoking the Reviewer Port for it; the returned list holds the
keys for which the Reviewer Port is invoked by this promotion. The
promotion happens even on failure so the queue never stalls. -/
def onJobSettled (q : QueueState) (jobId : Nat) (_outcome : Outcome) (now : Nat) :
    QueueState × List EntityKey :=
  match q.entries.find? (fun e => e.jobId == jobId) with
  | none => (q, [])
  | some e =>
    let remaining := q.entries.filter (fun x => !(x.jobId == jobId))
    let completed := (e.key, now) :: q.completedAt
    match remaining.find? (fun x => x.status == EntryStatus.waiting) with
    | none =>
        ({ q with entries := remaining, completedAt := completed }, [])
    | some w =>
        ({ q with
            entries := remaining.map (promoteEntry w.jobId),
            completedAt := completed },
         [w.key])

/-! ## Findings and the TrackingRecord -/

/-- Severity of a finding. -/
inductive Severity
  | blocking
  | warning
  | suggestion
deriving DecidableEq, Repr

/-- Local lifecycle status of a finding (the source strings are open,
resolved, dismissed; the first is renamed because open is a keyword). -/
inductive LocalStatus
  | opened
  | resolved
  | dismissed
deriving DecidableEq, Repr

/-- Last remote status synced for a finding's thread. -/
inductive RemoteSyncStatus
  | opened
  | resolved
deriving DecidableEq, Repr

/-- Modelled from the spec: a finding's mapping onto a remote discussion
thread: remoteThreadId, lastSyncedRemoteStatus, lastSyncedAt. -/
structure ThreadMapping where
  remoteThreadId : Nat
  lastSyncedRemoteStatus : RemoteSyncStatus
  lastSyncedAt : Option Nat
deriving DecidableEq, Repr

/-- Modelled from the spec: a Finding: stable id, severity, message,
location (file and line, or null), localStatus, optional threadMapping. -/
structure Finding where
  id : String
  severity : Severity
  message : String
  location : Option (String × Nat)
  localStatus : LocalStatus
  threadMapping : Option ThreadMapping
deriving DecidableEq, Repr

/-- Lifecycle state of a tracked reviewable entity. -/
inductive LifecycleState
  | notTracked
  | assigned
  | reviewing
  | pendingApproval
  | resolved
  | closed
deriving DecidableEq, Repr

/-- Modelled from the spec: the TrackingRecord, one per key: key, state,
lastKnownCommit, ordered findings, optional timestamps, followupCount, and
the version used for optimistic concurrency on writes. -/
structure TrackingRecord where
  key : EntityKey
  state : LifecycleState
  lastKnownCommit : String
  findings : List Finding
  assignedAt : Option Nat
  lastReviewCompletedAt : Option Nat
  lastFollowupAt : Option Nat
  followupCount : Nat
  version : Nat
deriving DecidableEq, Repr

/-! ## Follow-up Need Evaluator -/

/-- Modelled from the spec: pure predicate shouldFollowup(record, now,
staleAfterMs): true iff at least one finding has severity blocking and
localStatus open and now - lastReviewCompletedAt is at least staleAfterMs. -/
def shouldFollowup (r : TrackingRecord) (now staleAfterMs : Nat) : Bool :=
  r.findings.any
      (fun f => f.severity == Severity.blocking && f.localStatus == LocalStatus.opened)
    && match r.lastReviewCompletedAt with
       | some t => decide (staleAfterMs ≤ now - t)
       | none => false

/-! ## Review Lifecycle State Machine -/

/-- Domain events consumed by the lifecycle state machine. -/
inductive ReviewEvent
  | assignment (time : Nat)
  | reviewCompleted (newFindings : List Finding) (time : Nat)
  | push (commitSha : String)
  | followupCheck (now : Nat) (staleAfterMs : Nat)
  | remoteThreadResolved
  | closedExternally
deriving DecidableEq, Repr

/-- Side effects emitted by a committed transition. -/
inductive SideEffect
  | createRecord
  | enqueueAdmission (key : EntityKey)
  | retireRecord
deriving DecidableEq, Repr

/-- Modelled from the spec: merging findings on re-review: findings
matching an existing id keep their threadMapping and update message,
location and severity; findings with a new id are appended with
localStatus open; prior findings no longer reported keep their stored
localStatus unchanged. -/
def mergeFindings (existing incoming : List Finding) : List Finding :=
  existing.map (fun f =>
      match incoming.find? (fun g => g.id == f.id) with
      | some g =>
          { f with message := g.message, location := g.location, severity := g.severity }
      | none => f)
    ++ (incoming.filter (fun g => !(existing.any (fun f => f.id == g.id)))).map
        (fun g => { g with localStatus := LocalStatus.opened })

/-- Whether a (state, event) pair is a row of the spec's transition table
(ignoring guards: a listed row with a failing guard is still listed). -/
def listedPair : LifecycleState → ReviewEvent → Bool
  | LifecycleState.notTracked, ReviewEvent.assignment _ => true
  | LifecycleState.assigned, ReviewEvent.reviewCompleted _ _ => true
  | LifecycleState.pendingApproval, ReviewEvent.push _ => true
  | LifecycleState.pendingApproval, ReviewEvent.followupCheck _ _ => true
  | LifecycleState.pendingApproval, ReviewEvent.remoteThreadResolved => true
  | LifecycleState.reviewing, ReviewEvent.reviewCompleted _ _ => true
  | s, ReviewEvent.closedExternally => !(s == LifecycleState.closed)
  | _, _ => false

/-- Modelled from the spec: the lifecycle transition function, one row per
table entry; an unknown event for the current state is a no-op (logged,
record unchanged), never a fatal error, so the function is total. -/
def applyEvent (r : TrackingRecord) (ev : ReviewEvent) :
    TrackingRecord × List SideEffect :=
  match r.state, ev with
  | LifecycleState.notTracked, ReviewEvent.assignment t =>
      ({ r with state := LifecycleState.assigned, assignedAt := some t },
       [SideEffect.createRecord])
  | LifecycleState.assigned, ReviewEvent.reviewCompleted fs t =>
      ({ r with state := LifecycleState.pendingApproval,
                findings := r.findings ++ fs,
                lastReviewCompletedAt := some t }, [])
  | LifecycleState.pendingApproval, ReviewEvent.push sha =>
      if sha == r.lastKnownCommit then (r, [])
      else
        ({ r with state := LifecycleState.reviewing, lastKnownCommit := sha },
         [SideEffect.enqueueAdmission r.key])
  | LifecycleState.pendingApproval, ReviewEvent.followupCheck now stale =>
      if shouldFollowup r now stale then
        ({ r with state := LifecycleState.reviewing,
                  followupCount := r.followupCount + 1,
                  lastFollowupAt := some now },
         [SideEffect.enqueueAdmission r.key])
      else
        ({ r with state := LifecycleState.resolved }, [])
  | LifecycleState.pendingApproval, ReviewEvent.remoteThreadResolved =>
      ({ r with state := LifecycleState.resolved }, [])
  | LifecycleState.reviewing, ReviewEvent.reviewCompleted fs t =>
      ({ r with state := LifecycleState.pendingApproval,
                findings := mergeFindings r.findings fs,
                lastReviewCompletedAt := some t }, [])
  | s, ReviewEvent.closedExternally =>
      if s == LifecycleState.closed then (r, [])
      else ({ r with state := LifecycleState.closed }, [SideEffect.retireRecord])
  | _, _ => (r, [])

/-! ## Tracking Store with optimistic versioning -/

/-- Keyed durable storage: one TrackingRecord per key. -/
abbrev Store := List (EntityKey × TrackingRecord)

/-- Read the record stored for a key. -/
def lookupRecord (s : Store) (k : EntityKey) : Option TrackingRecord :=
  match s.find? (fun p => p.1 == k) with
  | some p => some p.2
  | none => none

/-- Replace the record stored for a key, in place. -/
def updateRecord (s : Store) (k : EntityKey) (r : TrackingRecord) : Store :=
  s.map (fun p => if p.1 == k then (k, r) else p)

/-- Errors of a versioned store write. -/
inductive WriteError
  | versionConflict
  | notFound
deriving DecidableEq, Repr

/-- Modelled from the spec: read-verify-write against the store. The writer
passes the version it read; the write succeeds only when that version still
matches the stored one, and then stores the new record with version bumped
by exactly 1; on mismatch it rejects with versionConflict rather than
silently overwriting. -/
def writeRecord (s : Store) (k : EntityKey) (readVersion : Nat)
    (newRec : TrackingRecord) : Except WriteError Store :=
  match lookupRecord s k with
  | none => Except.error WriteError.notFound
  | some cur =>
      if cur.version = readVersion then
        Except.ok (updateRecord s k { newRec with version := cur.version + 1 })
      else
        Except.error WriteError.versionConflict

/-- Errors surfaced by a state-machine transition attempt. -/
inductive TransitionError
  | recordMissing
  | conflictRetryable
deriving DecidableEq, Repr

/-- Modelled from the spec: a state-machine transition as a single
read-verify-write; a version conflict causes the caller to re-read and
retry the transition exactly once, then surface a retryable transient
error if it still conflicts. Concurrent writers may change the store
between a read and the corresponding write; the three store arguments are
the store as seen at the first read (s0), at the first write and second
read (s1), and at the second write (s2). -/
def transitionWithRetry (s0 s1 s2 : Store) (k : EntityKey) (ev : ReviewEvent) :
    Except TransitionError Store :=
  match lookupRecord s0 k with
  | none => Except.error TransitionError.recordMissing
  | some r =>
    match writeRecord s1 k r.version (applyEvent r ev).1 with
    | Except.ok s => Except.ok s
    | Except.error _ =>
      match lookupRecord s1 k with
      | none => Except.error TransitionError.recordMissing
      | some r2 =>
        match writeRecord s2 k r2.version (applyEvent r2 ev).1 with
        | Except.ok s => Except.ok s
        | Except.error _ => Except.error TransitionError.conflictRetryable

/-! ## Thread Reconciliation Engine -/

/-- One element of a RemoteThreadSnapshot: remoteThreadId and isResolved. -/
structure RemoteThread where
  remoteThreadId : Nat
  isResolved : Bool
deriving DecidableEq, Repr

/-- Remote-mutating gateway calls issued by reconciliation; creating a
discussion thread for a finding is the only remote mutation the engine
performs. -/
inductive RemoteAction
  | createThread (findingId : String)
deriving DecidableEq, Repr

/-- Resolution status of a remote thread in the snapshot, if present. -/
def findRemote (snap : List RemoteThread) (threadId : Nat) : Option Bool :=
  match snap.find? (fun t => t.remoteThreadId == threadId) with
  | some t => some t.isResolved
  | none => none

/-- Modelled from the spec: reconciliation of one finding against the
remote snapshot. No threadMapping: create a remote thread (the counter
models the gateway handing out the fresh thread id) and store the mapping
with lastSyncedRemoteStatus open. Mapped and remote resolved while locally
open: mark locally resolved. Mapped and remote open while locally resolved:
no action (never reopen remote threads automatically). Mapped but the id is
missing from the snapshot: skip with a logged sync-conflict, local state
unchanged. -/
def reconcileFinding (snap : List RemoteThread) (nextId : Nat) (f : Finding) :
    Finding × List RemoteAction × Nat :=
  match f.threadMapping with
  | none =>
      ({ f with threadMapping := some ⟨nextId, RemoteSyncStatus.opened, none⟩ },
       [RemoteAction.createThread f.id], nextId + 1)
  | some m =>
    match findRemote snap m.remoteThreadId with
    | none => (f, [], nextId)
    | some true =>
        if f.localStatus == LocalStatus.opened then
          ({ f with localStatus := LocalStatus.resolved,
                    threadMapping :=
                      some { m with lastSyncedRemoteStatus := RemoteSyncStatus.resolved } },
           [], nextId)
        else (f, [], nextId)
    | some false => (f, [], nextId)

/-- Modelled from the spec: a reconciliation pass over the record's
findings in order, threading the fresh-thread-id counter and collecting
the remote-mutating calls. -/
def reconcile (snap : List RemoteThread) :
    List Finding → Nat → List Finding × List RemoteAction × Nat
  | [], n => ([], [], n)
  | f :: fs, n =>
    let step := reconcileFinding snap n f
    let rest := reconcile snap fs step.2.2
    (step.1 :: rest.1, step.2.1 ++ rest.2.1, rest.2.2)

/-! ## AddRepositoriesToConfigUseCase (embedded from
src/usecases/cli/addRepositoriesToConfig.usecase.ts) -/

/-- A repository entry of the configuration file. -/
structure RepositoryEntry where
  name : String
  localPath : String
  enabled : Bool
deriving DecidableEq, Repr

/-- The parsed configuration file: its repositories array plus the other
top-level fields, which the use case leaves untouched. -/
structure ReviewConfig where
  repositories : List RepositoryEntry
  otherFields : List (String × String)
deriving DecidableEq, Repr

/-- Input of the use case: configPath and newRepositories. -/
structure AddReposInput where
  configPath : String
  newRepositories : List RepositoryEntry
deriving DecidableEq, Repr

/-- Result of the use case: added, skipped, configPath. -/
structure AddReposResult where
  added : List RepositoryEntry
  skipped : List RepositoryEntry
  configPath : String
deriving DecidableEq, Repr

namespace AddRepositoriesToConfigUseCase

/-- The loop of execute: for each input repository, push it onto skipped
when its localPath is in the pre-existing path set, else onto added. The
set is computed once before the loop, so it never contains paths added by
the loop itself. -/
def splitRepos (existingPaths : List String) (repos : List RepositoryEntry) :
    List RepositoryEntry × List RepositoryEntry :=
  repos.foldl
    (fun acc repo =>
      if existingPaths.contains repo.localPath then (acc.1, acc.2 ++ [repo])
      else (acc.1 ++ [repo], acc.2))
    ([], [])

/-- Embedded from execute(input) of AddRepositoriesToConfigUseCase. The
filesystem and JSON.parse are shallowly embedded: fileExists is the result
of existsSync(configPath), and parsed is some config when the file content
parses as JSON, none otherwise. On success the returned config is the one
written back via writeFileSync. -/
def execute (fileExists : Bool) (parsed : Option ReviewConfig)
    (input : AddReposInput) : Except String (ReviewConfig × AddReposResult) :=
  if !fileExists then
    Except.error ("Configuration file not found: " ++ input.configPath)
  else
    match parsed with
    | none => Except.error ("Invalid JSON in configuration file: " ++ input.configPath)
    | some config =>
      let existingPaths := config.repositories.map (fun r => r.localPath)
      let s := splitRepos existingPaths input.newRepositories
      Except.ok
        ({ config with repositories := config.repositories ++ s.1 },
         { added := s.1, skipped := s.2, configPath := input.configPath })

end AddRepositoriesToConfigUseCase

/-! ## Runtime settings (embedded from frameworks/settings/runtimeSettings.ts) -/

/-- The two supported interface languages (entities/language/language.schema.ts). -/
inductive Language
  | en
  | fr
deriving DecidableEq, Repr

/-- Runtime settings that can be changed without restart. The model field
is a plain string in the embedding because setModel validates its argument
dynamically and throws on anything outside sonnet and opus. -/
structure RuntimeSettings where
  model : String
  language : Language
deriving DecidableEq, Repr

/-- Embedded from getModel(). -/
def getModel (s : RuntimeSettings) : String :=
  s.model

/-- Embedded from setModel(model): throws on any argument other than
sonnet and opus before touching the stored settings (an error leaves the
settings unchanged); otherwise stores the model. -/
def setModel (s : RuntimeSettings) (m : String) : Except String RuntimeSettings :=
  if m ≠ "sonnet" ∧ m ≠ "opus" then
    Except.error ("Invalid model: " ++ m)
  else
    Except.ok { s with model := m }

/-- Embedded from getSettings(): returns a copy of the settings. -/
def getSettings (s : RuntimeSettings) : RuntimeSettings :=
  { model := s.model, language := s.language }

/-- The stored settings after a setModel call: the TypeScript function
throws before the assignment, so a rejected call leaves the module-level
settings object untouched. -/
def setModelState (s : RuntimeSettings) (m : String) : RuntimeSettings :=
  match setModel s m with
  | Except.ok s2 => s2
  | Except.error _ => s

/-! ## Theorems -/

/-- A key with no running entry has a zero per-key running count. -/
theorem runningCountFor_eq_zero (q : QueueState) (k : EntityKey)
    (h : hasRunningFor q k = false) : runningCountFor q k = 0 := by
  refine List.countP_eq_zero.mpr ?_
  intro e he hp
  have := List.any_eq_false.mp h e he
  exact this hp

/-- C6: shouldFollowup(record, now, staleAfterMs) returns trigger true if
and only if the record has at least one finding with severity blocking and
localStatus open and now - lastReviewCompletedAt is at least staleAfterMs;
since the first conjunct demands severity blocking, findings of severity
warning or suggestion never cause a trigger, regardless of age or status. -/
theorem shouldFollowup_iff (r : TrackingRecord) (now staleAfterMs : Nat) :
    shouldFollowup r now staleAfterMs = true ↔
      ((∃ f ∈ r.findings,
          f.severity = Severity.blocking ∧ f.localStatus = LocalStatus.opened) ∧
       ∃ t, r.lastReviewCompletedAt = some t ∧ staleAfterMs ≤ now - t) := by
  cases h : r.lastReviewCompletedAt with
  | none =>
      simp [shouldFollowup, h]
  | some t =>
      simp [shouldFollowup, h, List.any_eq_true, and_assoc]

/-- C7: submit(key, payload) returns rejected(debounced) exactly when no
entry for the key is running and the last completed submission for the key
finished strictly less than deduplicationWindowMs ago. -/
theorem submit_debounced_iff (cfg : QueueConfig) (q : QueueState) (k : EntityKey)
    (now : Nat) :
    (submit cfg q k now).1 = AdmissionResult.rejectedDebounced ↔
      hasRunningFor q k = false ∧
      ∃ t, lookupCompleted q.completedAt k = some t ∧
        now - t < cfg.deduplicationWindowMs := by
  cases hrun : hasRunningFor q k with
  | true => simp [submit, hrun]
  | false =>
      cases hc : lookupCompleted q.completedAt k with
      | none =>
          by_cases hcap : runningCount q < cfg.maxConcurrent <;>
            simp [submit, hrun, isDebounced, hc, hcap]
      | some t =>
          by_cases hwin : now - t < cfg.deduplicationWindowMs
          · simp [submit, hrun, isDebounced, hc, hwin]
          · by_cases hcap : runningCount q < cfg.maxConcurrent <;>
              simp [submit, hrun, isDebounced, hc, hwin, hcap]

/-- C10: setModel(m) throws for every argument other than sonnet and opus,
leaving the stored runtime settings unchanged; for sonnet and opus it
succeeds, a subsequent getModel() returns m, and the stored language is
unaffected. -/
theorem setModel_spec (s : RuntimeSettings) (m : String) :
    (m ≠ "sonnet" ∧ m ≠ "opus" →
       setModel s m = Except.error ("Invalid model: " ++ m) ∧
       setModelState s m = s) ∧
    (m = "sonnet" ∨ m = "opus" →
       setModel s m = Except.ok { model := m, language := s.language } ∧
       getModel (setModelState s m) = m ∧
       (setModelState s m).language = s.language) := by
  constructor
  · intro h
    simp [setModel, setModelState, h]
  · rintro (rfl | rfl) <;> simp [setModel, setModelState, getModel]

/-- Witness for C10: a rejected call with an invalid model and an accepted
call with sonnet, at concrete settings. -/
theorem setModel_spec_witness :
    setModel { model := "opus", language := Language.en } "haiku"
        = Except.error ("Invalid model: " ++ "haiku") ∧
    setModel { model := "opus", language := Language.fr } "sonnet"
        = Except.ok { model := "sonnet", language := Language.fr } := by
  refine ⟨((setModel_spec { model := "opus", language := Language.en } "haiku").1 ?_).1,
          ((setModel_spec { model := "opus", language := Language.fr } "sonnet").2
            (Or.inl rfl)).1⟩
  constructor <;> decide

/-- Accumulator-generalized description of the loop of
AddRepositoriesToConfigUseCase.execute: entries whose localPath is outside
the pre-existing path set end up appended to the first component in input
order, the others to the second. -/
theorem splitRepos_go (ps : List String) (repos : List RepositoryEntry)
    (a s : List RepositoryEntry) :
    repos.foldl
      (fun acc repo =>
        if ps.contains repo.localPath then (acc.1, acc.2 ++ [repo])
        else (acc.1 ++ [repo], acc.2))
      (a, s)
      = (a ++ repos.filter (fun r => !(ps.contains r.localPath)),
         s ++ repos.filter (fun r => ps.contains r.localPath)) := by
  induction repos generalizing a s with
  | nil => simp
  | cons r rest ih =>
      by_cases h : r.localPath ∈ ps
      all_goals simp only [List.foldl_cons, List.filter_cons]
      all_goals simp [h]
      all_goals simp at ih
      all_goals rw [ih]
      all_goals simp

/-- The loop of execute computes the two filters of the input against the
pre-existing path set. -/
theorem splitRepos_eq_filter (ps : List String) (repos : List RepositoryEntry) :
    AddRepositoriesToConfigUseCase.splitRepos ps repos =
      (repos.filter (fun r => !(ps.contains r.localPath)),
       repos.filter (fun r => ps.contains r.localPath)) := by
  unfold AddRepositoriesToConfigUseCase.splitRepos
  simpa using splitRepos_go ps repos [] []

/-- C9: when the config file exists and parses, execute returns added =
the input repositories whose localPath is not among the paths of the
config as read (in input order), skipped = the rest (in input order), and
writes back the read config with exactly the added list appended to its
repositories; the path set is computed before the loop, so two input
entries sharing a localPath that is new to the config are both added. -/
theorem execute_adds_and_skips (config : ReviewConfig) (input : AddReposInput) :
    AddRepositoriesToConfigUseCase.execute true (some config) input =
      Except.ok
        ({ config with
            repositories := config.repositories ++
              input.newRepositories.filter
                (fun r =>
                  !((config.repositories.map (fun x => x.localPath)).contains
                      r.localPath)) },
         { added := input.newRepositories.filter
              (fun r =>
                !((config.repositories.map (fun x => x.localPath)).contains
                    r.localPath)),
           skipped := input.newRepositories.filter
              (fun r =>
                (config.repositories.map (fun x => x.localPath)).contains
                  r.localPath),
           configPath := input.configPath }) := by
  simp [AddRepositoriesToConfigUseCase.execute, splitRepos_eq_filter]

/-- C1: at most one running entry per key under submit: a submit for a key
that already has a running entry returns rejected(duplicate-running) with
the state unchanged (so no new running entry is created), and a per-key
running count of at most one is preserved by every submit call. -/
theorem submit_at_most_one_running (cfg : QueueConfig) (q : QueueState)
    (k j : EntityKey) (now : Nat) (hj : runningCountFor q j ≤ 1) :
    (hasRunningFor q k = true →
       submit cfg q k now = (AdmissionResult.rejectedDuplicateRunning, q)) ∧
    runningCountFor (submit cfg q k now).2 j ≤ 1 := by
  constructor
  · intro h
    simp [submit, h]
  · cases hrun : hasRunningFor q k with
    | true => simpa [submit, hrun] using hj
    | false =>
        cases hdeb : isDebounced cfg q k now with
        | true => simpa [submit, hrun, hdeb] using hj
        | false =>
            by_cases hcap : runningCount q < cfg.maxConcurrent
            · simp only [submit, hrun, hdeb, hcap, Bool.false_eq_true, if_false,
                if_true, if_pos]
              by_cases hk : k = j
              · subst hk
                have h0 : runningCountFor q k = 0 := runningCountFor_eq_zero q k hrun
                unfold runningCountFor at h0 ⊢
                simp [List.countP_append, List.countP_cons, h0]
              · unfold runningCountFor at hj ⊢
                have hkj : (k == j) = false := by
                  simp [hk]
                simp [List.countP_append, List.countP_cons, hkj, hj]
            · simp only [submit, hrun, hdeb, hcap, Bool.false_eq_true, if_false,
                if_true, if_neg]
              unfold runningCountFor at hj ⊢
              simp [List.countP_append, List.countP_cons, hj]

/-- Witness for C1: with a running entry for a key, a second submit for
the same key is rejected as duplicate-running and the state is unchanged. -/
theorem submit_at_most_one_running_witness :
    submit { maxConcurrent := 2, deduplicationWindowMs := 300000 }
        { entries := [⟨⟨Platform.gitlab, 1, 2⟩, 0, 0, EntryStatus.running⟩],
          completedAt := [], nextJobId := 1 }
        ⟨Platform.gitlab, 1, 2⟩ 5
      = (AdmissionResult.rejectedDuplicateRunning,
         { entries := [⟨⟨Platform.gitlab, 1, 2⟩, 0, 0, EntryStatus.running⟩],
           completedAt := [], nextJobId := 1 }) :=
  (submit_at_most_one_running
      { maxConcurrent := 2, deduplicationWindowMs := 300000 }
      { entries := [⟨⟨Platform.gitlab, 1, 2⟩, 0, 0, EntryStatus.running⟩],
        completedAt := [], nextJobId := 1 }
      ⟨Platform.gitlab, 1, 2⟩ ⟨Platform.gitlab, 1, 2⟩ 5 (by decide)).1 (by decide)

/-- C4: with maxConcurrent at least 1, the global running count never
exceeds maxConcurrent across submit calls: a submit admits a new running
entry only when the running count is below maxConcurrent, and at capacity
it appends a waiting entry to the FIFO list and returns queued(jobId)
instead of dropping the request. -/
theorem submit_bounded_concurrency (cfg : QueueConfig) (q : QueueState)
    (k : EntityKey) (now : Nat) (_hmax : 1 ≤ cfg.maxConcurrent)
    (hcount : runningCount q ≤ cfg.maxConcurrent) :
    runningCount (submit cfg q k now).2 ≤ cfg.maxConcurrent ∧
    (hasRunningFor q k = false → isDebounced cfg q k now = false →
       cfg.maxConcurrent ≤ runningCount q →
       (submit cfg q k now).1 = AdmissionResult.queued q.nextJobId ∧
       (submit cfg q k now).2.entries
         = q.entries ++ [⟨k, q.nextJobId, now, EntryStatus.waiting⟩]) := by
  constructor
  · cases hrun : hasRunningFor q k with
    | true => simpa [submit, hrun] using hcount
    | false =>
        cases hdeb : isDebounced cfg q k now with
        | true => simpa [submit, hrun, hdeb] using hcount
        | false =>
            by_cases hcap : runningCount q < cfg.maxConcurrent
            · simp only [submit, hrun, hdeb, hcap, Bool.false_eq_true, if_false,
                if_true, if_pos]
              unfold runningCount at hcap ⊢
              simp [List.countP_append, List.countP_cons]
              omega
            · simp only [submit, hrun, hdeb, hcap, Bool.false_eq_true, if_false,
                if_true, if_neg]
              unfold runningCount at hcount ⊢
              simp [List.countP_append, List.countP_cons, hcount]
  · intro h1 h2 h3
    have hcap : ¬ runningCount q < cfg.maxConcurrent := Nat.not_lt.mpr h3
    simp [submit, h1, h2, hcap]

/-- Witness for C4: the spec scenario with maxConcurrent 2, two jobs
already running for two distinct keys, and a third distinct key submitted:
the running count stays 2 and the third request is queued, not dropped. -/
theorem submit_bounded_concurrency_witness :
    runningCount
        (submit { maxConcurrent := 2, deduplicationWindowMs := 300000 }
          { entries :=
              [⟨⟨Platform.gitlab, 1, 1⟩, 0, 0, EntryStatus.running⟩,
               ⟨⟨Platform.gitlab, 1, 2⟩, 1, 0, EntryStatus.running⟩],
            completedAt := [], nextJobId := 2 }
          ⟨Platform.gitlab, 1, 3⟩ 0).2 ≤ 2 ∧
    (submit { maxConcurrent := 2, deduplicationWindowMs := 300000 }
        { entries :=
            [⟨⟨Platform.gitlab, 1, 1⟩, 0, 0, EntryStatus.running⟩,
             ⟨⟨Platform.gitlab, 1, 2⟩, 1, 0, EntryStatus.running⟩],
          completedAt := [], nextJobId := 2 }
        ⟨Platform.gitlab, 1, 3⟩ 0).1 = AdmissionResult.queued 2 := by
  have h := submit_bounded_concurrency
    { maxConcurrent := 2, deduplicationWindowMs := 300000 }
    { entries :=
        [⟨⟨Platform.gitlab, 1, 1⟩, 0, 0, EntryStatus.running⟩,
         ⟨⟨Platform.gitlab, 1, 2⟩, 1, 0, EntryStatus.running⟩],
      completedAt := [], nextJobId := 2 }
    ⟨Platform.gitlab, 1, 3⟩ 0 (by decide) (by decide)
  exact ⟨h.1, (h.2 (by decide) (by decide) (by decide)).1⟩

/-- C5: for every (state, event) pair that is not a row of the lifecycle
transition table, applying the event leaves the record (in particular its
state and findings) unchanged and emits no side effect; applyEvent is a
total function, so no fatal error can be raised. -/
theorem applyEvent_unlisted_noop (r : TrackingRecord) (ev : ReviewEvent)
    (h : listedPair r.state ev = false) :
    (applyEvent r ev).1.state = r.state ∧
    (applyEvent r ev).1.findings = r.findings ∧
    applyEvent r ev = (r, []) := by
  have hmain : applyEvent r ev = (r, []) := by
    cases hs : r.state <;> cases ev <;>
      simp_all [applyEvent, listedPair]
  exact ⟨by rw [hmain], by rw [hmain], hmain⟩

/-- Witness for C5: a review-completed event in state PendingApproval is
not a table row; the record is returned unchanged with no side effects. -/
theorem applyEvent_unlisted_noop_witness :
    applyEvent
        { key := ⟨Platform.gitlab, 1, 2⟩, state := LifecycleState.pendingApproval,
          lastKnownCommit := "abc", findings := [], assignedAt := some 1,
          lastReviewCompletedAt := some 2, lastFollowupAt := none,
          followupCount := 0, version := 3 }
        (ReviewEvent.reviewCompleted [] 9)
      = ({ key := ⟨Platform.gitlab, 1, 2⟩, state := LifecycleState.pendingApproval,
           lastKnownCommit := "abc", findings := [], assignedAt := some 1,
           lastReviewCompletedAt := some 2, lastFollowupAt := none,
           followupCount := 0, version := 3 }, []) :=
  (applyEvent_unlisted_noop
      { key := ⟨Platform.gitlab, 1, 2⟩, state := LifecycleState.pendingApproval,
        lastKnownCommit := "abc", findings := [], assignedAt := some 1,
        lastReviewCompletedAt := some 2, lastFollowupAt := none,
        followupCount := 0, version := 3 }
      (ReviewEvent.reviewCompleted [] 9) (by decide)).2.2

/-- Promotion changes only the status of an entry, never its jobId. -/
theorem promoteEntry_jobId (wid : Nat) (x : QueueEntry) :
    (promoteEntry wid x).jobId = x.jobId := by
  unfold promoteEntry
  split <;> rfl

/-- C8: for every outcome, success or failure alike, onJobSettled removes
the settled entry from the active set, records the completion time used by
the dedup window for the entry's key, and promotes the oldest waiting
entry (if one exists) to running, invoking the Reviewer Port for it; with
no waiting entry it invokes nothing. -/
theorem onJobSettled_spec (q : QueueState) (jobId now : Nat) (outcome : Outcome)
    (e : QueueEntry)
    (hfind : q.entries.find? (fun x => x.jobId == jobId) = some e) :
    onJobSettled q jobId outcome now = onJobSettled q jobId Outcome.success now ∧
    (onJobSettled q jobId outcome now).1.completedAt = (e.key, now) :: q.completedAt ∧
    lookupCompleted (onJobSettled q jobId outcome now).1.completedAt e.key = some now ∧
    (∀ x ∈ (onJobSettled q jobId outcome now).1.entries, x.jobId ≠ jobId) ∧
    (∀ w, (q.entries.filter (fun x => !(x.jobId == jobId))).find?
            (fun x => x.status == EntryStatus.waiting) = some w →
       (onJobSettled q jobId outcome now).2 = [w.key] ∧
       (onJobSettled q jobId outcome now).1.entries
         = (q.entries.filter (fun x => !(x.jobId == jobId))).map
             (promoteEntry w.jobId) ∧
       promoteEntry w.jobId w = { w with status := EntryStatus.running }) ∧
    ((q.entries.filter (fun x => !(x.jobId == jobId))).find?
            (fun x => x.status == EntryStatus.waiting) = none →
       (onJobSettled q jobId outcome now).2 = [] ∧
       (onJobSettled q jobId outcome now).1.entries
         = q.entries.filter (fun x => !(x.jobId == jobId))) := by
  have hterm : ∀ x ∈ q.entries.filter (fun x => !(x.jobId == jobId)),
      x.jobId ≠ jobId := by
    intro x hx
    have hpx := (List.mem_filter.mp hx).2
    simpa using hpx
  refine ⟨rfl, ?_, ?_, ?_, ?_, ?_⟩
  · cases hw : (q.entries.filter (fun x => !(x.jobId == jobId))).find?
        (fun x => x.status == EntryStatus.waiting) <;>
      simp [onJobSettled, hfind, hw]
  · cases hw : (q.entries.filter (fun x => !(x.jobId == jobId))).find?
        (fun x => x.status == EntryStatus.waiting) <;>
      simp [onJobSettled, hfind, hw, lookupCompleted]
  · cases hw : (q.entries.filter (fun x => !(x.jobId == jobId))).find?
        (fun x => x.status == EntryStatus.waiting) with
    | none =>
        simp only [onJobSettled, hfind, hw]
        exact hterm
    | some w =>
        simp only [onJobSettled, hfind, hw]
        intro x hx
        obtain ⟨y, hy, rfl⟩ := List.mem_map.mp hx
        rw [promoteEntry_jobId]
        exact hterm y hy
  · intro w hw
    simp [onJobSettled, hfind, hw, promoteEntry]
  · intro hw
    simp [onJobSettled, hfind, hw]

/-- Witness for C8: settling the only running job with a failed outcome
still records the completion time and promotes the waiting entry,
invoking the Reviewer Port for its key. -/
theorem onJobSettled_spec_witness :
    onJobSettled
        { entries :=
            [⟨⟨Platform.gitlab, 1, 1⟩, 0, 0, EntryStatus.running⟩,
             ⟨⟨Platform.github, 2, 7⟩, 1, 3, EntryStatus.waiting⟩],
          completedAt := [], nextJobId := 2 }
        0 Outcome.failure 10
      = onJobSettled
          { entries :=
              [⟨⟨Platform.gitlab, 1, 1⟩, 0, 0, EntryStatus.running⟩,
               ⟨⟨Platform.github, 2, 7⟩, 1, 3, EntryStatus.waiting⟩],
            completedAt := [], nextJobId := 2 }
          0 Outcome.success 10 ∧
    (onJobSettled
        { entries :=
            [⟨⟨Platform.gitlab, 1, 1⟩, 0, 0, EntryStatus.running⟩,
             ⟨⟨Platform.github, 2, 7⟩, 1, 3, EntryStatus.waiting⟩],
          completedAt := [], nextJobId := 2 }
        0 Outcome.failure 10).2 = [⟨Platform.github, 2, 7⟩] := by
  have h := onJobSettled_spec
    { entries :=
        [⟨⟨Platform.gitlab, 1, 1⟩, 0, 0, EntryStatus.running⟩,
         ⟨⟨Platform.github, 2, 7⟩, 1, 3, EntryStatus.waiting⟩],
      completedAt := [], nextJobId := 2 }
    0 10 Outcome.failure ⟨⟨Platform.gitlab, 1, 1⟩, 0, 0, EntryStatus.running⟩
    (by decide)
  exact ⟨h.1, (h.2.2.2.2.1 ⟨⟨Platform.github, 2, 7⟩, 1, 3, EntryStatus.waiting⟩
    (by decide)).1⟩

/-- Updating a key that is present in the store makes a subsequent lookup
of that key return the new record. -/
theorem lookupRecord_updateRecord (s : Store) (k : EntityKey)
    (r cur : TrackingRecord) (h : lookupRecord s k = some cur) :
    lookupRecord (updateRecord s k r) k = some r := by
  induction s with
  | nil => simp [lookupRecord] at h
  | cons p rest ih =>
      by_cases hp : p.1 = k
      · simp [lookupRecord, updateRecord, List.find?_cons, hp]
      · have h' : lookupRecord rest k = some cur := by
          simpa [lookupRecord, List.find?_cons, hp] using h
        have hrec := ih h'
        simpa [lookupRecord, updateRecord, List.find?_cons, hp] using hrec

/-- C3: a write to the tracking store succeeds exactly when the version
the writer read still matches the stored version, and then bumps the
stored version by exactly 1; a mismatched write is rejected with a version
conflict instead of overwriting; and the state-machine caller retries a
conflicted transition exactly once after re-reading, surfacing the
retryable transient error conflictRetryable if the retry conflicts again
(and committing normally if the retry succeeds). -/
theorem version_write_retry :
    (∀ (s : Store) (k : EntityKey) (v : Nat) (n : TrackingRecord) (s2 : Store),
       writeRecord s k v n = Except.ok s2 →
       ∃ cur, lookupRecord s k = some cur ∧ cur.version = v ∧
         lookupRecord s2 k = some { n with version := v + 1 }) ∧
    (∀ (s : Store) (k : EntityKey) (v : Nat) (n cur : TrackingRecord),
       lookupRecord s k = some cur → cur.version ≠ v →
       writeRecord s k v n = Except.error WriteError.versionConflict) ∧
    (∀ (s0 s1 s2 : Store) (k : EntityKey) (ev : ReviewEvent)
       (r r2 : TrackingRecord) (res : Except WriteError Store),
       lookupRecord s0 k = some r →
       writeRecord s1 k r.version (applyEvent r ev).1
         = Except.error WriteError.versionConflict →
       lookupRecord s1 k = some r2 →
       writeRecord s2 k r2.version (applyEvent r2 ev).1 = res →
       transitionWithRetry s0 s1 s2 k ev
         = (match res with
            | Except.ok s => Except.ok s
            | Except.error _ => Except.error TransitionError.conflictRetryable)) := by
  refine ⟨?_, ?_, ?_⟩
  · intro s k v n s2 hw
    cases hc : lookupRecord s k with
    | none => simp [writeRecord, hc] at hw
    | some cur =>
        by_cases hv : cur.version = v
        · simp only [writeRecord, hc, if_pos hv, Except.ok.injEq] at hw
          refine ⟨cur, rfl, hv, ?_⟩
          have hrec := lookupRecord_updateRecord s k
            { n with version := cur.version + 1 } cur hc
          rw [← hw]
          simpa [hv] using hrec
        · simp [writeRecord, hc, hv] at hw
  · intro s k v n cur hc hv
    simp [writeRecord, hc, hv]
  · intro s0 s1 s2 k ev r r2 res h0 h1 h2 h3
    simp only [transitionWithRetry, h0, h1, h2, h3]

/-- Witness for C3: a concrete transition whose first write hits a version
conflict (a concurrent writer bumped the version between read and write)
and whose single retry conflicts again, surfacing the retryable error. -/
theorem version_write_retry_witness :
    transitionWithRetry
        [(⟨Platform.gitlab, 1, 2⟩,
          { key := ⟨Platform.gitlab, 1, 2⟩, state := LifecycleState.pendingApproval,
            lastKnownCommit := "a", findings := [], assignedAt := none,
            lastReviewCompletedAt := none, lastFollowupAt := none,
            followupCount := 0, version := 0 })]
        [(⟨Platform.gitlab, 1, 2⟩,
          { key := ⟨Platform.gitlab, 1, 2⟩, state := LifecycleState.pendingApproval,
            lastKnownCommit := "a", findings := [], assignedAt := none,
            lastReviewCompletedAt := none, lastFollowupAt := none,
            followupCount := 0, version := 5 })]
        [(⟨Platform.gitlab, 1, 2⟩,
          { key := ⟨Platform.gitlab, 1, 2⟩, state := LifecycleState.pendingApproval,
            lastKnownCommit := "a", findings := [], assignedAt := none,
            lastReviewCompletedAt := none, lastFollowupAt := none,
            followupCount := 0, version := 7 })]
        ⟨Platform.gitlab, 1, 2⟩ ReviewEvent.remoteThreadResolved
      = Except.error TransitionError.conflictRetryable := by
  have h := version_write_retry.2.2
    [(⟨Platform.gitlab, 1, 2⟩,
      { key := ⟨Platform.gitlab, 1, 2⟩, state := LifecycleState.pendingApproval,
        lastKnownCommit := "a", findings := [], assignedAt := none,
        lastReviewCompletedAt := none, lastFollowupAt := none,
        followupCount := 0, version := 0 })]
    [(⟨Platform.gitlab, 1, 2⟩,
      { key := ⟨Platform.gitlab, 1, 2⟩, state := LifecycleState.pendingApproval,
        lastKnownCommit := "a", findings := [], assignedAt := none,
        lastReviewCompletedAt := none, lastFollowupAt := none,
        followupCount := 0, version := 5 })]
    [(⟨Platform.gitlab, 1, 2⟩,
      { key := ⟨Platform.gitlab, 1, 2⟩, state := LifecycleState.pendingApproval,
        lastKnownCommit := "a", findings := [], assignedAt := none,
        lastReviewCompletedAt := none, lastFollowupAt := none,
        followupCount := 0, version := 7 })]
    ⟨Platform.gitlab, 1, 2⟩ ReviewEvent.remoteThreadResolved
    { key := ⟨Platform.gitlab, 1, 2⟩, state := LifecycleState.pendingApproval,
      lastKnownCommit := "a", findings := [], assignedAt := none,
      lastReviewCompletedAt := none, lastFollowupAt := none,
      followupCount := 0, version := 0 }
    { key := ⟨Platform.gitlab, 1, 2⟩, state := LifecycleState.pendingApproval,
      lastKnownCommit := "a", findings := [], assignedAt := none,
      lastReviewCompletedAt := none, lastFollowupAt := none,
      followupCount := 0, version := 5 }
    (Except.error WriteError.versionConflict)
    rfl rfl rfl rfl
  exact h

/-- Reconciling one finding never decreases the fresh-thread-id counter. -/
theorem reconcileFinding_le (snap : List RemoteThread) (n : Nat) (f : Finding) :
    n ≤ (reconcileFinding snap n f).2.2 := by
  unfold reconcileFinding
  cases hm : f.threadMapping with
  | none => simp
  | some m =>
      cases hr : findRemote snap m.remoteThreadId with
      | none => simp [hr]
      | some b =>
          cases b with
          | false => simp [hr]
          | true =>
              by_cases hst : f.localStatus == LocalStatus.opened <;> simp [hr, hst]

/-- A reconciliation pass never decreases the fresh-thread-id counter. -/
theorem reconcile_le (snap : List RemoteThread) (fs : List Finding) (n : Nat) :
    n ≤ (reconcile snap fs n).2.2 := by
  induction fs generalizing n with
  | nil => simp [reconcile]
  | cons f fs ih =>
      have h1 := reconcileFinding_le snap n f
      have h2 := ih (reconcileFinding snap n f).2.2
      simpa [reconcile] using le_trans h1 h2

/-- A remote thread id below the counter is absent from any snapshot whose
ids are all below the counter. -/
theorem findRemote_fresh (snap : List RemoteThread) (n : Nat)
    (hfresh : ∀ t ∈ snap, t.remoteThreadId < n) : findRemote snap n = none := by
  unfold findRemote
  have hnone : snap.find? (fun t => t.remoteThreadId == n) = none := by
    rw [List.find?_eq_none]
    intro t ht
    simp [Nat.ne_of_lt (hfresh t ht)]
  rw [hnone]

/-- Reconciling a finding that a previous reconciliation pass has already
processed (against the same snapshot, all of whose thread ids are below
the counter used by that pass) changes nothing, issues no remote call and
leaves any counter untouched. -/
theorem reconcileFinding_stable (snap : List RemoteThread) (n m : Nat) (f : Finding)
    (hfresh : ∀ t ∈ snap, t.remoteThreadId < n) :
    reconcileFinding snap m (reconcileFinding snap n f).1
      = ((reconcileFinding snap n f).1, [], m) := by
  cases hm : f.threadMapping with
  | none =>
      have hnone : findRemote snap n = none := findRemote_fresh snap n hfresh
      simp [reconcileFinding, hm, hnone]
  | some m0 =>
      cases hr : findRemote snap m0.remoteThreadId with
      | none => simp [reconcileFinding, hm, hr]
      | some b =>
          cases b with
          | false => simp [reconcileFinding, hm, hr]
          | true =>
              by_cases hst : f.localStatus == LocalStatus.opened
              · simp [reconcileFinding, hm, hr, hst]
              · simp [reconcileFinding, hm, hr, hst]

/-- A second reconciliation pass over the output of a first pass (same
snapshot, fresh counter) returns the findings unchanged with no remote
calls. -/
theorem reconcile_stable (snap : List RemoteThread) (fs : List Finding) (n m : Nat)
    (hfresh : ∀ t ∈ snap, t.remoteThreadId < n) :
    reconcile snap (reconcile snap fs n).1 m = ((reconcile snap fs n).1, [], m) := by
  induction fs generalizing n m with
  | nil => simp [reconcile]
  | cons f fs ih =>
      have hstep := reconcileFinding_stable snap n m f hfresh
      have hfresh2 : ∀ t ∈ snap, t.remoteThreadId < (reconcileFinding snap n f).2.2 :=
        fun t ht => lt_of_lt_of_le (hfresh t ht) (reconcileFinding_le snap n f)
      have hrest := ih (reconcileFinding snap n f).2.2 m hfresh2
      simp only [reconcile] at hrest ⊢
      rw [hstep, hrest]
      simp

/-- C2: running the reconciliation engine twice on the same findings with
an unchanged remote snapshot (whose thread ids are all below the fresh-id
counter) yields identical local state after both runs — the second pass
returns the first pass's findings unchanged — and the second pass performs
zero remote-mutating gateway calls. -/
theorem reconcile_idempotent (snap : List RemoteThread) (fs : List Finding) (n : Nat)
    (hfresh : ∀ t ∈ snap, t.remoteThreadId < n) :
    reconcile snap (reconcile snap fs n).1 (reconcile snap fs n).2.2
      = ((reconcile snap fs n).1, [], (reconcile snap fs n).2.2) :=
  reconcile_stable snap fs n (reconcile snap fs n).2.2 hfresh

/-- Witness for C2: a snapshot with one resolved thread, one finding
mapped to it (still locally open) and one unmapped finding; the first run
resolves the former and creates a thread for the latter; the second run
changes nothing and issues no remote call. -/
theorem reconcile_idempotent_witness :
    reconcile [⟨1, true⟩]
        (reconcile [⟨1, true⟩]
          [{ id := "f1", severity := Severity.blocking, message := "m1",
             location := none, localStatus := LocalStatus.opened,
             threadMapping := some ⟨1, RemoteSyncStatus.opened, none⟩ },
           { id := "f2", severity := Severity.suggestion, message := "m2",
             location := none, localStatus := LocalStatus.opened,
             threadMapping := none }] 5).1
        (reconcile [⟨1, true⟩]
          [{ id := "f1", severity := Severity.blocking, message := "m1",
             location := none, localStatus := LocalStatus.opened,
             threadMapping := some ⟨1, RemoteSyncStatus.opened, none⟩ },
           { id := "f2", severity := Severity.suggestion, message := "m2",
             location := none, localStatus := LocalStatus.opened,
             threadMapping := none }] 5).2.2
      = ((reconcile [⟨1, true⟩]
          [{ id := "f1", severity := Severity.blocking, message := "m1",
             location := none, localStatus := LocalStatus.opened,
             threadMapping := some ⟨1, RemoteSyncStatus.opened, none⟩ },
           { id := "f2", severity := Severity.suggestion, message := "m2",
             location := none, localStatus := LocalStatus.opened,
             threadMapping := none }] 5).1, [],
         (reconcile [⟨1, true⟩]
          [{ id := "f1", severity := Severity.blocking, message := "m1",
             location := none, localStatus := LocalStatus.opened,
             threadMapping := some ⟨1, RemoteSyncStatus.opened, none⟩ },
           { id := "f2", severity := Severity.suggestion, message := "m2",
             location := none, localStatus := LocalStatus.opened,
             threadMapping := none }] 5).2.2) :=
  reconcile_idempotent [⟨1, true⟩]
    [{ id := "f1", severity := Severity.blocking, message := "m1",
       location := none, localStatus := LocalStatus.opened,
       threadMapping := some ⟨1, RemoteSyncStatus.opened, none⟩ },
     { id := "f2", severity := Severity.suggestion, message := "m2",
       location := none, localStatus := LocalStatus.opened,
       threadMapping := none }] 5 (by decide)

end Reviewflow
